import Mathlib

/-!
Verification of the session-scoped request gateway of the go-adk HTTP server:
the session registry (`SessionManager`), the per-session lock discipline of
the chat handler (`HandleChat`), and the streamed-response assembly.

The Go sources embedded here are `internal/service/session_manager.go`
(ChatSession, SessionManager, GetOrCreate, generateSessionID),
`internal/handler` HandleChat, and the equivalent flat variant in `main.go`
(both variants carry the same registry and handler logic line for line).
Mutable state is passed explicitly; the Go mutex on a session is modelled
both as a boolean field threaded through the handler and, for the
serialization argument, as a transition system on lock-holder states.
-/

namespace GoAdk

/-- mirror of genai.Part: only the Text field is read by the gateway. -/
structure Part where
  Text : String
deriving DecidableEq

/-- mirror of genai.Content: a role plus a list of parts. -/
structure Content where
  Role : String
  Parts : List Part
deriving DecidableEq

/-- opaque handle standing for agent.Agent; the gateway only stores it and
passes it along, never inspects it. -/
structure Agent where
  tag : Nat
deriving DecidableEq

/-- mirror of ChatSession (session_manager.go lines 12-17): ID, Agent,
History, and the per-session mutex Mu, modelled as a boolean lock state
(true when held). A fresh sync.Mutex is unlocked, hence Mu starts false. -/
structure ChatSession where
  ID : String
  Agent : Agent
  History : List Content
  Mu : Bool
deriving DecidableEq

/-- wall-clock time at second resolution, the granularity Go's layout
string 20060102150405 can express. -/
structure Timestamp where
  year : Nat
  month : Nat
  day : Nat
  hour : Nat
  minute : Nat
  second : Nat
deriving DecidableEq

/-- the decimal digit character for n % 10. -/
def digitChar (n : Nat) : Char := Char.ofNat (48 + n % 10)

/-- fixed-width zero-padded decimal rendering (least-significant digits),
matching the fixed-width numeric fields of Go's reference layout. -/
def padNat : Nat → Nat → List Char
  | 0, _ => []
  | w + 1, n => padNat w (n / 10) ++ [digitChar n]

/-- mirror of time.Format with layout 20060102150405: a 14-character digit
string, year to second, second resolution. -/
def Timestamp.format (t : Timestamp) : String :=
  ⟨padNat 4 t.year ++ padNat 2 t.month ++ padNat 2 t.day ++
   padNat 2 t.hour ++ padNat 2 t.minute ++ padNat 2 t.second⟩

/-- mirror of generateSessionID (session_manager.go lines 53-55):
time.Now().Format("20060102150405"), a pure function of the current
second. -/
def generateSessionID (now : Timestamp) : String := now.format

/-- mirror of SessionManager (session_manager.go lines 20-23): the session
map, modelled as an association list; the registry RWMutex is the short
critical section that makes GetOrCreate atomic, which explicit state
passing already renders. -/
structure SessionManager where
  sessions : List (String × ChatSession)
deriving DecidableEq

/-- mirror of NewSessionManager: an empty registry. -/
def NewSessionManager : SessionManager := ⟨[]⟩

/-- mirror of SessionManager.GetOrCreate (session_manager.go lines 32-51):
generate an id when the given one is empty, return an existing binding
unchanged, otherwise insert a fresh session with empty history and an
unlocked mutex. `now` is the clock read taken inside the call. -/
def SessionManager.GetOrCreate (sm : SessionManager) (sessionID : String)
    (a : Agent) (now : Timestamp) : ChatSession × SessionManager :=
  let sid := if sessionID = "" then generateSessionID now else sessionID
  match sm.sessions.lookup sid with
  | some chatSession => (chatSession, sm)
  | none =>
      let chatSession : ChatSession := { ID := sid, Agent := a, History := [], Mu := false }
      (chatSession, ⟨(sid, chatSession) :: sm.sessions⟩)

/-- mirror of model.ChatRequest: message plus optional session id (empty
string when absent). -/
structure ChatRequest where
  Message : String
  SessionID : String
deriving DecidableEq

/-- mirror of model.ChatResponse: response text, session id, error text
(empty string when absent). -/
structure ChatResponse where
  Response : String
  SessionID : String
  Error : String
deriving DecidableEq

/-- result of json.NewDecoder(r.Body).Decode: either a decode failure or a
parsed request. -/
inductive ParsedBody
  | malformed
  | parsed (req : ChatRequest)
deriving DecidableEq

/-- mirror of a session event from the runner: possibly nil content. The
event pointer itself may be nil, rendered by wrapping in Option at the
use site. -/
structure Event where
  Content : Option Content
deriving DecidableEq

/-- one element yielded by the agentRunner.Run iterator: an (event, err)
pair where exactly one side is meaningful, as the handler reads it. -/
inductive StreamItem
  | ok (e : Option Event)
  | fail (msg : String)
deriving DecidableEq

/-- whether a stream element is an error element. -/
def StreamItem.isFail : StreamItem → Bool
  | .fail _ => true
  | .ok _ => false

/-- behaviour of the external engine during one turn: the error (if any)
returned by sessionService.Get, the error (if any) returned by
sessionService.Create, and the sequence agentRunner.Run yields. -/
structure EngineOracle where
  getErr : Option String
  createErr : Option String
  stream : List StreamItem
deriving DecidableEq

/-- a Go context, reduced to the one observable the handler cares about:
its deadline (in seconds), none meaning no deadline. -/
structure Context where
  deadline : Option Nat
deriving DecidableEq

/-- context.Background(): carries no deadline and is never cancelled. -/
def backgroundContext : Context := ⟨none⟩

/-- whether pat occurs as a leading run of hay. -/
def leadsWith : List Char → List Char → Bool
  | [], _ => true
  | _ :: _, [] => false
  | p :: ps, c :: cs => p == c && leadsWith ps cs

/-- whether pat occurs as a contiguous run somewhere in hay. -/
def containsSub (pat : List Char) : List Char → Bool
  | [] => leadsWith pat []
  | c :: rest => leadsWith pat (c :: rest) || containsSub pat rest

/-- mirror of strings.Contains(s, pat). -/
def stringContains (s pat : String) : Bool := containsSub pat.data s.data

/-- the inner loop over event.Content.Parts: write part.Text whenever it is
non-empty (handler lines 167-171). -/
def partsText : List Part → String
  | [] => ""
  | p :: ps => (if p.Text ≠ "" then p.Text else "") ++ partsText ps

/-- text contributed by one non-error stream element: guarded by the nil
checks on event and event.Content and the len(Parts) > 0 test
(handler lines 164-173). -/
def eventText : Option Event → String
  | none => ""
  | some ev =>
    match ev.Content with
    | none => ""
    | some c => if c.Parts.length > 0 then partsText c.Parts else ""

/-- the range-over-iterator loop (handler lines 157-174): accumulate text
into the strings.Builder until the sequence ends or the first error
element, at which point the loop breaks with lastError set. -/
def drainStream : List StreamItem → String → String × Option String
  | [], acc => (acc, none)
  | .fail m :: _, acc => (acc, some m)
  | .ok e :: rest, acc => drainStream rest (acc ++ eventText e)

/-- the text the full stream would contribute, element by element in
delivery order. -/
def streamText : List StreamItem → String
  | [] => ""
  | .ok e :: rest => eventText e ++ streamText rest
  | .fail _ :: rest => streamText rest

/-- the engine-session bootstrap (handler lines 122-142): Get, then on any
Get error a Create, whose failure is fatal unless its message contains
"already exists". Returns the fatal error (if any) and whether Create was
attempted. -/
def ensureEngineSession (o : EngineOracle) : Option String × Bool :=
  match o.getErr with
  | none => (none, false)
  | some _ =>
    match o.createErr with
    | none => (none, true)
    | some ce =>
      if stringContains ce "already exists" then (none, true) else (some ce, true)

/-- fallback reply substituted when the drained stream produced no text
(handler lines 184-187). -/
def fallbackReply : String :=
  "O agente processou a mensagem, mas não retornou uma resposta."

/-- the execution phase of a turn (handler lines 152-195): drain the
stream; a recorded error yields the failure response, otherwise the
concatenated text, or the fallback when it is empty. -/
def runExec (stream : List StreamItem) (sid : String) : ChatResponse :=
  match drainStream stream "" with
  | (_, some e) => { Response := "", SessionID := sid, Error := "Failed to process message: " ++ e }
  | (text, none) =>
      { Response := if text = "" then fallbackReply else text, SessionID := sid, Error := "" }

/-- the locked section of a turn (handler lines 115-195): bootstrap the
engine session, abort with the bootstrap error response on fatal failure,
otherwise run the execution phase. -/
def runTurn (o : EngineOracle) (sid : String) : ChatResponse :=
  match (ensureEngineSession o).1 with
  | some ce => { Response := "", SessionID := sid, Error := "Failed to create session: " ++ ce }
  | none => runExec o.stream sid

/-- everything HandleChat leaves behind: the HTTP response, the registry
after the turn, the handled session as it was while the turn ran and
after the deferred unlock, and the context the engine calls ran under. -/
structure HandleResult where
  response : ChatResponse
  manager : SessionManager
  sessionDuring : Option ChatSession
  sessionAfter : Option ChatSession
  execCtx : Option Context
deriving DecidableEq

/-- write back the handled session into the registry under its own id,
rendering that the Go map holds a pointer to the mutated struct. -/
def SessionManager.setSession (sm : SessionManager) (cs : ChatSession) : SessionManager :=
  ⟨sm.sessions.map (fun p => if p.1 = cs.ID then (p.1, cs) else p)⟩

/-- mirror of HandleChat (handler lines 88-196, identical to main.go lines
164-277): reject malformed JSON, reject an empty message before touching
the registry, otherwise resolve the session, lock it, run the turn under
context.Background() — note the request context reqCtx is received but
never passed to the engine — and unlock on every return path via defer. -/
def HandleChat (reqCtx : Context) (sm : SessionManager) (a : Agent)
    (body : ParsedBody) (o : EngineOracle) (now : Timestamp) : HandleResult :=
  match body with
  | .malformed =>
      { response := { Response := "", SessionID := "", Error := "Invalid JSON format" },
        manager := sm, sessionDuring := none, sessionAfter := none, execCtx := none }
  | .parsed req =>
    if req.Message = "" then
      { response := { Response := "", SessionID := "", Error := "Message is required" },
        manager := sm, sessionDuring := none, sessionAfter := none, execCtx := none }
    else
      let res := sm.GetOrCreate req.SessionID a now
      let locked : ChatSession := { res.1 with Mu := true }
      let execCtx := backgroundContext
      let resp := runTurn o locked.ID
      let unlocked : ChatSession := { locked with Mu := false }
      { response := resp,
        manager := res.2.setSession unlocked,
        sessionDuring := some locked,
        sessionAfter := some unlocked,
        execCtx := some execCtx }

/-- progress of one inbound turn through the handler: before Mu.Lock,
between Mu.Lock and the deferred Mu.Unlock, and after the unlock. -/
inductive Phase
  | idle
  | running
  | done
deriving DecidableEq

/-- the shared lock state over all in-flight turns: which turn (if any)
holds each session's Mu, and each turn's phase. Turns are numbered by Nat;
the map sess from turn to session id is a parameter of the system. -/
structure LockSystemState where
  lockHolder : String → Option Nat
  phase : Nat → Phase

/-- the state before any turn has run: every Mu free, every turn idle. -/
def initLS : LockSystemState := ⟨fun _ => none, fun _ => Phase.idle⟩

/-- effect of turn t completing chatSess.Mu.Lock(). -/
def acquireState (sess : Nat → String) (t : Nat) (s : LockSystemState) : LockSystemState :=
  ⟨fun sid => if sid = sess t then some t else s.lockHolder sid,
   fun u => if u = t then Phase.running else s.phase u⟩

/-- effect of turn t running its deferred chatSess.Mu.Unlock(). -/
def releaseState (sess : Nat → String) (t : Nat) (s : LockSystemState) : LockSystemState :=
  ⟨fun sid => if sid = sess t then none else s.lockHolder sid,
   fun u => if u = t then Phase.done else s.phase u⟩

/-- the two atomic transitions of turn t against its session's Mu: Lock
succeeds only while no turn holds that session's Mu (a held sync.Mutex
blocks), and the deferred Unlock is performed by the holder. -/
inductive LockStep (sess : Nat → String) (t : Nat) : LockSystemState → LockSystemState → Prop
  | acquire (s : LockSystemState)
      (hp : s.phase t = Phase.idle) (hl : s.lockHolder (sess t) = none) :
      LockStep sess t s (acquireState sess t s)
  | release (s : LockSystemState)
      (hp : s.phase t = Phase.running) (hl : s.lockHolder (sess t) = some t) :
      LockStep sess t s (releaseState sess t s)

/-- some turn takes a step. -/
def AnyStep (sess : Nat → String) (s s' : LockSystemState) : Prop :=
  ∃ t, LockStep sess t s s'

/-- states the system can reach from the initial state by interleaving
turn steps. -/
def ReachableLS (sess : Nat → String) (s : LockSystemState) : Prop :=
  Relation.ReflTransGen (AnyStep sess) initLS s

/-- a turn in its locked section holds its session's Mu. -/
def LockInv (sess : Nat → String) (s : LockSystemState) : Prop :=
  ∀ t, s.phase t = Phase.running → s.lockHolder (sess t) = some t

/-- turn u is able to complete Mu.Lock right now. -/
def acquireEnabled (sess : Nat → String) (u : Nat) (s : LockSystemState) : Prop :=
  s.phase u = Phase.idle ∧ s.lockHolder (sess u) = none

theorem lockInv_init (sess : Nat → String) : LockInv sess initLS := by
  intro t h
  simp [initLS] at h

theorem lockInv_step (sess : Nat → String) (t : Nat) (s s' : LockSystemState)
    (hinv : LockInv sess s) (hstep : LockStep sess t s s') : LockInv sess s' := by
  cases hstep with
  | acquire hp hl =>
      intro u hu
      simp only [acquireState] at hu ⊢
      by_cases hut : u = t
      · subst hut
        simp
      · simp only [if_neg hut] at hu
        have hold := hinv u hu
        by_cases hss : sess u = sess t
        · rw [hss, hl] at hold
          exact absurd hold (by simp)
        · simp [hss, hold]
  | release hp hl =>
      intro u hu
      simp only [releaseState] at hu ⊢
      by_cases hut : u = t
      · subst hut
        simp at hu
      · simp only [if_neg hut] at hu
        have hold := hinv u hu
        by_cases hss : sess u = sess t
        · rw [hss, hl] at hold
          exact absurd (Option.some.inj hold).symm hut
        · simp [hss, hold]

theorem lockInv_reachable (sess : Nat → String) (s : LockSystemState)
    (h : ReachableLS sess s) : LockInv sess s := by
  induction h with
  | refl => exact lockInv_init sess
  | tail _ hstep ih =>
      obtain ⟨t, hstep⟩ := hstep
      exact lockInv_step sess t _ _ ih hstep

theorem padNat_length (w : Nat) : ∀ n, (padNat w n).length = w := by
  induction w with
  | zero => intro n; rfl
  | succ w ih => intro n; simp [padNat, ih]

theorem generateSessionID_length (now : Timestamp) : (generateSessionID now).length = 14 := by
  simp [generateSessionID, Timestamp.format, String.length, padNat_length]

theorem generateSessionID_ne_empty (now : Timestamp) : generateSessionID now ≠ "" := by
  intro h
  have h14 := generateSessionID_length now
  rw [h] at h14
  exact absurd h14 (by decide)

theorem lookup_cons_self {k : String} {v : ChatSession} {tl : List (String × ChatSession)} :
    List.lookup k ((k, v) :: tl) = some v := by
  simp [List.lookup]

theorem lookup_cons_ne {k k' : String} (h : k ≠ k') {v : ChatSession}
    {tl : List (String × ChatSession)} :
    List.lookup k ((k', v) :: tl) = List.lookup k tl := by
  have hb : (k == k') = false := beq_eq_false_iff_ne.mpr h
  simp [List.lookup, hb]

theorem lookup_of_mem_nodup : ∀ {l : List (String × ChatSession)},
    (l.map Prod.fst).Nodup → ∀ {k : String} {s : ChatSession},
    (k, s) ∈ l → List.lookup k l = some s := by
  intro l
  induction l with
  | nil => intro _ k s h; cases h
  | cons p tl ih =>
    intro hnd k s h
    obtain ⟨k', v⟩ := p
    simp only [List.map_cons] at hnd
    rcases List.mem_cons.mp h with heq | htl
    · cases heq
      exact lookup_cons_self
    · by_cases hk : k = k'
      · subst hk
        have hmem : k ∈ tl.map Prod.fst := List.mem_map.mpr ⟨(k, s), htl, rfl⟩
        exact absurd hmem (List.nodup_cons.mp hnd).1
      · rw [lookup_cons_ne hk]
        exact ih (List.nodup_cons.mp hnd).2 htl

theorem not_mem_keys_of_lookup_none : ∀ {l : List (String × ChatSession)} {k : String},
    List.lookup k l = none → k ∉ l.map Prod.fst := by
  intro l
  induction l with
  | nil => intro k _; simp
  | cons p tl ih =>
    intro k h
    obtain ⟨k', v⟩ := p
    by_cases hk : k = k'
    · subst hk
      rw [lookup_cons_self] at h
      cases h
    · rw [lookup_cons_ne hk] at h
      simp only [List.map_cons, List.mem_cons]
      push_neg
      exact ⟨hk, ih h⟩

theorem getOrCreate_hit (sm : SessionManager) (id : String) (a : Agent) (now : Timestamp)
    (s : ChatSession)
    (hl : List.lookup (if id = "" then generateSessionID now else id) sm.sessions = some s) :
    sm.GetOrCreate id a now = (s, sm) := by
  simp [SessionManager.GetOrCreate, hl]

theorem getOrCreate_fresh (sm : SessionManager) (id : String) (a : Agent) (now : Timestamp)
    (hl : List.lookup (if id = "" then generateSessionID now else id) sm.sessions = none) :
    sm.GetOrCreate id a now =
      (⟨if id = "" then generateSessionID now else id, a, [], false⟩,
       ⟨(if id = "" then generateSessionID now else id,
         (⟨if id = "" then generateSessionID now else id, a, [], false⟩ : ChatSession))
           :: sm.sessions⟩) := by
  simp [SessionManager.GetOrCreate, hl]

/-- registry well-formedness: each stored session is keyed by its own
non-empty ID, and keys are pairwise distinct. -/
def SessionManager.WF (sm : SessionManager) : Prop :=
  (∀ p ∈ sm.sessions, p.2.ID = p.1 ∧ p.1 ≠ "") ∧ (sm.sessions.map Prod.fst).Nodup

/-- C2: two GetOrCreate calls with an empty session id inside the same
clock second do NOT allocate two distinct sessions: generateSessionID has
second resolution, so the second call finds the first call's id already
registered and returns that very session, leaving a single registry
entry where the claim demands two. -/
theorem c2_same_second_empty_id_collides :
    ((NewSessionManager.GetOrCreate "" ⟨0⟩ ⟨2024, 1, 1, 12, 0, 0⟩).2.GetOrCreate ""
        ⟨0⟩ ⟨2024, 1, 1, 12, 0, 0⟩).1
      = (NewSessionManager.GetOrCreate "" ⟨0⟩ ⟨2024, 1, 1, 12, 0, 0⟩).1
    ∧ ((NewSessionManager.GetOrCreate "" ⟨0⟩ ⟨2024, 1, 1, 12, 0, 0⟩).2.GetOrCreate ""
        ⟨0⟩ ⟨2024, 1, 1, 12, 0, 0⟩).2.sessions.length = 1 := by
  decide

/-- C5: GetOrCreate is idempotent for explicit non-empty ids: when the id
is already registered the registered session is returned with the registry
and all session fields untouched, and a repeated call with the same
explicit id (whatever agent and clock it carries) returns the very session
and registry the first call produced. -/
theorem c5_getOrCreate_idempotent (sm : SessionManager) (id : String) (a a2 : Agent)
    (now now2 : Timestamp) (h : id ≠ "") :
    (∀ s : ChatSession, List.lookup id sm.sessions = some s →
      sm.GetOrCreate id a now = (s, sm))
    ∧ (sm.GetOrCreate id a now).2.GetOrCreate id a2 now2
        = ((sm.GetOrCreate id a now).1, (sm.GetOrCreate id a now).2) := by
  constructor
  · intro s hs
    exact getOrCreate_hit sm id a now s (by rw [if_neg h]; exact hs)
  · cases hl : List.lookup id sm.sessions with
    | some s =>
        have h1 := getOrCreate_hit sm id a now s (by rw [if_neg h]; exact hl)
        rw [h1]
        exact getOrCreate_hit sm id a2 now2 s (by rw [if_neg h]; exact hl)
    | none =>
        have h1 := getOrCreate_fresh sm id a now (by rw [if_neg h]; exact hl)
        rw [h1]
        refine getOrCreate_hit _ id a2 now2 _ ?_
        rw [if_neg h]
        simp only [if_neg h]
        exact lookup_cons_self

/-- C5 witness: registering the id abc and calling again with a different
agent and a later clock returns the session and registry of the first
call unchanged. -/
theorem c5_witness :
    (NewSessionManager.GetOrCreate "abc" ⟨0⟩ ⟨2024, 1, 1, 0, 0, 0⟩).2.GetOrCreate "abc"
        ⟨1⟩ ⟨2025, 2, 2, 2, 2, 2⟩
      = ((NewSessionManager.GetOrCreate "abc" ⟨0⟩ ⟨2024, 1, 1, 0, 0, 0⟩).1,
         (NewSessionManager.GetOrCreate "abc" ⟨0⟩ ⟨2024, 1, 1, 0, 0, 0⟩).2) :=
  (c5_getOrCreate_idempotent NewSessionManager "abc" ⟨0⟩ ⟨1⟩ ⟨2024, 1, 1, 0, 0, 0⟩
    ⟨2025, 2, 2, 2, 2, 2⟩ (by decide)).2

/-- C6: a request whose message is empty is answered with exactly the
Message is required error response, the registry is returned exactly as it
was (no session created), and the response carries an empty session id. -/
theorem c6_empty_message_rejected (reqCtx : Context) (sm : SessionManager) (a : Agent)
    (sid : String) (o : EngineOracle) (now : Timestamp) :
    HandleChat reqCtx sm a (.parsed ⟨"", sid⟩) o now
      = { response := { Response := "", SessionID := "", Error := "Message is required" },
          manager := sm, sessionDuring := none, sessionAfter := none, execCtx := none } := by
  rfl

/-- C10: GetOrCreate preserves registry well-formedness (every stored
session keyed by its own non-empty ID, keys distinct), never removes or
replaces an existing binding, and any later call that resolves to a bound
id — an explicit id, or an empty id whose generated id is already bound —
returns the identical stored session and leaves the registry unchanged. -/
theorem c10_registry_stability (sm : SessionManager) (id : String) (a : Agent)
    (now : Timestamp) (hwf : sm.WF) :
    (sm.GetOrCreate id a now).2.WF
    ∧ (∀ p ∈ sm.sessions, p ∈ (sm.GetOrCreate id a now).2.sessions)
    ∧ (∀ s : ChatSession, (id, s) ∈ sm.sessions → id ≠ "" →
        sm.GetOrCreate id a now = (s, sm))
    ∧ (∀ s : ChatSession, (generateSessionID now, s) ∈ sm.sessions →
        sm.GetOrCreate "" a now = (s, sm)) := by
  refine ⟨?_, ?_, ?_, ?_⟩
  · cases hl : List.lookup (if id = "" then generateSessionID now else id) sm.sessions with
    | some s => rw [getOrCreate_hit sm id a now s hl]; exact hwf
    | none =>
        rw [getOrCreate_fresh sm id a now hl]
        constructor
        · intro p hp
          rcases List.mem_cons.mp hp with heq | htl
          · subst heq
            refine ⟨rfl, ?_⟩
            by_cases hid : id = ""
            · simp only [hid, if_pos rfl]
              exact generateSessionID_ne_empty now
            · simp only [if_neg hid]
              exact hid
          · exact hwf.1 p htl
        · simp only [List.map_cons]
          exact List.nodup_cons.mpr ⟨not_mem_keys_of_lookup_none hl, hwf.2⟩
  · cases hl : List.lookup (if id = "" then generateSessionID now else id) sm.sessions with
    | some s => rw [getOrCreate_hit sm id a now s hl]; intro p hp; exact hp
    | none =>
        rw [getOrCreate_fresh sm id a now hl]
        intro p hp
        exact List.mem_cons_of_mem _ hp
  · intro s hmem hid
    exact getOrCreate_hit sm id a now s
      (by rw [if_neg hid]; exact lookup_of_mem_nodup hwf.2 hmem)
  · intro s hmem
    exact getOrCreate_hit sm "" a now s
      (by rw [if_pos rfl]; exact lookup_of_mem_nodup hwf.2 hmem)

/-- C10 witness: the empty registry is well formed, and after registering
the id abc the resulting registry is again well formed. -/
theorem c10_witness :
    NewSessionManager.WF
    ∧ (NewSessionManager.GetOrCreate "abc" ⟨0⟩ ⟨2024, 1, 1, 0, 0, 0⟩).2.WF := by
  have hwf : NewSessionManager.WF := by
    constructor
    · intro p hp; cases hp
    · exact List.nodup_nil
  exact ⟨hwf, (c10_registry_stability NewSessionManager "abc" ⟨0⟩ ⟨2024, 1, 1, 0, 0, 0⟩ hwf).1⟩

/-- C3 counterexample: a successful turn (empty Error, non-empty reply)
on a fresh session leaves the session history at length 0, not 0 + 2:
HandleChat never appends the user message or the reply to
ChatSession.History. -/
theorem c3_counterexample_history_not_grown :
    (HandleChat ⟨some 60⟩ NewSessionManager ⟨0⟩ (.parsed ⟨"Hi", "s1"⟩)
        ⟨none, none, [StreamItem.ok (some ⟨some ⟨"model", [⟨"Hello"⟩]⟩⟩)]⟩
        ⟨2024, 1, 1, 12, 0, 0⟩).response.Error = ""
    ∧ (HandleChat ⟨some 60⟩ NewSessionManager ⟨0⟩ (.parsed ⟨"Hi", "s1"⟩)
        ⟨none, none, [StreamItem.ok (some ⟨some ⟨"model", [⟨"Hello"⟩]⟩⟩)]⟩
        ⟨2024, 1, 1, 12, 0, 0⟩).response.Response = "Hello"
    ∧ ((HandleChat ⟨some 60⟩ NewSessionManager ⟨0⟩ (.parsed ⟨"Hi", "s1"⟩)
        ⟨none, none, [StreamItem.ok (some ⟨some ⟨"model", [⟨"Hello"⟩]⟩⟩)]⟩
        ⟨2024, 1, 1, 12, 0, 0⟩).sessionAfter.map fun s => s.History.length) = some 0
    ∧ (0 : Nat) ≠ 0 + 2 := by
  decide

/-- C3 amended: across any chat turn the gateway leaves
ChatSession.History exactly as GetOrCreate resolved it — it is never
shortened, modified or appended to; the turn-by-turn conversational
history lives only in the external engine's session store. -/
theorem c3_history_unchanged (reqCtx : Context) (sm : SessionManager) (a : Agent)
    (req : ChatRequest) (o : EngineOracle) (now : Timestamp) (h : req.Message ≠ "") :
    (HandleChat reqCtx sm a (.parsed req) o now).sessionAfter.map ChatSession.History
      = some (sm.GetOrCreate req.SessionID a now).1.History := by
  simp [HandleChat, h]

/-- C3 amended witness: the concrete successful turn of the
counterexample indeed leaves the resolved session's (empty) history
untouched. -/
theorem c3_witness :
    ((HandleChat ⟨some 60⟩ NewSessionManager ⟨0⟩ (.parsed ⟨"Hi", "s1"⟩)
        ⟨none, none, []⟩ ⟨2024, 1, 1, 12, 0, 0⟩).sessionAfter.map ChatSession.History
      = some (NewSessionManager.GetOrCreate "s1" ⟨0⟩ ⟨2024, 1, 1, 12, 0, 0⟩).1.History) :=
  c3_history_unchanged ⟨some 60⟩ NewSessionManager ⟨0⟩ ⟨"Hi", "s1"⟩ ⟨none, none, []⟩
    ⟨2024, 1, 1, 12, 0, 0⟩ (by decide)

/-- C4: whenever a turn acquires the session lock (any non-empty message,
any engine behaviour — bootstrap failure, mid-stream error or success are
all instances of the universally quantified oracle), the session runs the
turn with Mu held and is left with Mu released, the deferred unlock firing
on every exit path. -/
theorem c4_lock_released (reqCtx : Context) (sm : SessionManager) (a : Agent)
    (req : ChatRequest) (o : EngineOracle) (now : Timestamp) (h : req.Message ≠ "") :
    (HandleChat reqCtx sm a (.parsed req) o now).sessionDuring
        = some { (sm.GetOrCreate req.SessionID a now).1 with Mu := true }
    ∧ (HandleChat reqCtx sm a (.parsed req) o now).sessionAfter
        = some { (sm.GetOrCreate req.SessionID a now).1 with Mu := false } := by
  simp [HandleChat, h]

/-- C4 witness: on a turn whose engine-session bootstrap fails fatally,
the session still comes out with Mu released. -/
theorem c4_witness :
    (HandleChat ⟨none⟩ NewSessionManager ⟨0⟩ (.parsed ⟨"Hi", "s1"⟩)
        ⟨some "nf", some "boom", []⟩ ⟨2024, 1, 1, 12, 0, 0⟩).sessionAfter
      = some { (NewSessionManager.GetOrCreate "s1" ⟨0⟩ ⟨2024, 1, 1, 12, 0, 0⟩).1
               with Mu := false } :=
  (c4_lock_released ⟨none⟩ NewSessionManager ⟨0⟩ ⟨"Hi", "s1"⟩ ⟨some "nf", some "boom", []⟩
    ⟨2024, 1, 1, 12, 0, 0⟩ (by decide)).2

/-- C9: even when the request context carries a 60-second deadline (the
chi Timeout middleware), the handler runs the whole collaborator
execution under context.Background(), which has no deadline at all — the
request-scoped deadline can never interrupt the agent call or release the
session lock. -/
theorem c9_exec_runs_without_deadline :
    (HandleChat ⟨some 60⟩ NewSessionManager ⟨0⟩ (.parsed ⟨"Hi", "s1"⟩)
        ⟨none, none, []⟩ ⟨2024, 1, 1, 12, 0, 0⟩).execCtx = some backgroundContext
    ∧ backgroundContext.deadline = none := by
  decide

/-- C7: the engine-session bootstrap of a turn: a successful Get skips
creation entirely; any Get error triggers a Create attempt; a Create
failure whose message contains already exists is swallowed as success;
any other Create failure aborts the turn with the bootstrap error
response carrying the resolved session id; and a non-fatal bootstrap lets
the turn proceed to the execution phase. -/
theorem c7_engine_bootstrap (o : EngineOracle) (sid : String) :
    (o.getErr = none → ensureEngineSession o = (none, false))
    ∧ (∀ g, o.getErr = some g → (ensureEngineSession o).2 = true)
    ∧ (∀ g ce, o.getErr = some g → o.createErr = some ce →
        stringContains ce "already exists" = true → (ensureEngineSession o).1 = none)
    ∧ (∀ g ce, o.getErr = some g → o.createErr = some ce →
        stringContains ce "already exists" = false →
        runTurn o sid = { Response := "", SessionID := sid,
                          Error := "Failed to create session: " ++ ce })
    ∧ ((ensureEngineSession o).1 = none → runTurn o sid = runExec o.stream sid) := by
  refine ⟨?_, ?_, ?_, ?_, ?_⟩
  · intro h
    simp [ensureEngineSession, h]
  · intro g h
    cases hc : o.createErr with
    | none => simp [ensureEngineSession, h, hc]
    | some ce =>
        simp only [ensureEngineSession, h, hc]
        split <;> rfl
  · intro g ce hg hc hcontains
    simp [ensureEngineSession, hg, hc, hcontains]
  · intro g ce hg hc hcontains
    unfold runTurn
    simp [ensureEngineSession, hg, hc, hcontains]
  · intro h
    unfold runTurn
    rw [h]

/-- C7 witness: a Get failure followed by a Create failure whose message
does not contain already exists aborts the turn with the bootstrap error
response naming the session id. -/
theorem c7_witness :
    runTurn ⟨some "not found", some "boom", []⟩ "s1"
      = { Response := "", SessionID := "s1", Error := "Failed to create session: boom" } :=
  (c7_engine_bootstrap ⟨some "not found", some "boom", []⟩ "s1").2.2.2.1 "not found" "boom"
    rfl rfl (by decide)

theorem drainStream_clean : ∀ (l : List StreamItem) (acc : String),
    (∀ i ∈ l, i.isFail = false) → drainStream l acc = (acc ++ streamText l, none) := by
  intro l
  induction l with
  | nil =>
      intro acc _
      simp [drainStream, streamText, String.append_empty]
  | cons i tl ih =>
      intro acc hclean
      cases i with
      | ok e =>
          simp only [drainStream, streamText]
          rw [ih _ (fun j hj => hclean j (List.mem_cons_of_mem _ hj)), String.append_assoc]
      | fail m =>
          have := hclean (.fail m) (List.mem_cons_self _ _)
          simp [StreamItem.isFail] at this

theorem drainStream_stops_at_fail : ∀ (pre : List StreamItem) (m : String)
    (post : List StreamItem) (acc : String), (∀ i ∈ pre, i.isFail = false) →
    drainStream (pre ++ .fail m :: post) acc = (acc ++ streamText pre, some m) := by
  intro pre
  induction pre with
  | nil =>
      intro m post acc _
      simp [drainStream, streamText, String.append_empty]
  | cons i tl ih =>
      intro m post acc hclean
      cases i with
      | ok e =>
          simp only [List.cons_append, drainStream, streamText, List.append_eq]
          rw [ih m post _ (fun j hj => hclean j (List.mem_cons_of_mem _ hj)),
            String.append_assoc]
      | fail m2 =>
          have := hclean (.fail m2) (List.mem_cons_self _ _)
          simp [StreamItem.isFail] at this

/-- C8: the execution phase drains the response sequence in delivery
order: with no error element the reply is the concatenation of the
fragment texts in delivery order, the fallback reply standing in when
that concatenation is empty; with a first error element the turn returns
the execution error response, and every element after the error is
irrelevant to the result — it is never consumed. -/
theorem c8_stream_drain (stream : List StreamItem) (sid : String) :
    ((∀ i ∈ stream, i.isFail = false) →
      runExec stream sid
        = { Response := if streamText stream = "" then fallbackReply else streamText stream,
            SessionID := sid, Error := "" })
    ∧ (∀ pre m post, stream = pre ++ .fail m :: post → (∀ i ∈ pre, i.isFail = false) →
        runExec stream sid = { Response := "", SessionID := sid,
                               Error := "Failed to process message: " ++ m }
        ∧ ∀ post2, runExec (pre ++ StreamItem.fail m :: post2) sid = runExec stream sid) := by
  constructor
  · intro hclean
    have hd := drainStream_clean stream "" hclean
    rw [String.empty_append] at hd
    unfold runExec
    rw [hd]
  · intro pre m post hs hclean
    subst hs
    have hd := drainStream_stops_at_fail pre m post "" hclean
    rw [String.empty_append] at hd
    constructor
    · unfold runExec
      rw [hd]
    · intro post2
      have hd2 := drainStream_stops_at_fail pre m post2 "" hclean
      rw [String.empty_append] at hd2
      unfold runExec
      rw [hd, hd2]

/-- C8 witness: a clean two-fragment sequence concatenates to Hello in
delivery order. -/
theorem c8_witness :
    runExec [StreamItem.ok (some ⟨some ⟨"model", [⟨"Hel"⟩, ⟨"lo"⟩]⟩⟩)] "s1"
      = { Response := "Hello", SessionID := "s1", Error := "" } := by
  rw [(c8_stream_drain [StreamItem.ok (some ⟨some ⟨"model", [⟨"Hel"⟩, ⟨"lo"⟩]⟩⟩)] "s1").1
    (by decide)]
  decide

/-- C1: in every reachable interleaving of turns, two distinct turns on
the same session are never inside their locked sections at once; while a
turn on a session is running, no turn on that session can complete
Mu.Lock — the second turn's execution cannot begin before the first
completes — and a step taken by a turn on a different session neither
enables nor disables another turn's Mu.Lock, so turns on different
sessions proceed with no mutual ordering. -/
theorem c1_turn_serialization (sess : Nat → String) (s : LockSystemState)
    (h : ReachableLS sess s) (t u : Nat) :
    (t ≠ u → sess t = sess u →
      ¬(s.phase t = Phase.running ∧ s.phase u = Phase.running))
    ∧ (sess u = sess t → s.phase t = Phase.running → ¬ acquireEnabled sess u s)
    ∧ (∀ s', sess t ≠ sess u → LockStep sess t s s' →
        (acquireEnabled sess u s ↔ acquireEnabled sess u s')) := by
  have hinv := lockInv_reachable sess s h
  refine ⟨?_, ?_, ?_⟩
  · rintro hne hss ⟨ht, hu⟩
    have h1 := hinv t ht
    have h2 := hinv u hu
    rw [hss] at h1
    exact hne (Option.some.inj (h1.symm.trans h2))
  · rintro hss ht ⟨_, hu2⟩
    have h1 := hinv t ht
    rw [hss] at hu2
    exact Option.noConfusion (h1.symm.trans hu2)
  · intro s' hne hstep
    have hsu : sess u ≠ sess t := fun he => hne he.symm
    have hut : u ≠ t := fun he => hne (by rw [he])
    cases hstep with
    | acquire hp hl => simp [acquireEnabled, acquireState, hut, hsu]
    | release hp hl => simp [acquireEnabled, releaseState, hut, hsu]

/-- C1 witness: at the initial state (vacuously reachable), with both
turns on the same session, the mutual-exclusion clause holds for turns 0
and 1. -/
theorem c1_witness :
    ¬(initLS.phase 0 = Phase.running ∧ initLS.phase 1 = Phase.running) :=
  (c1_turn_serialization (fun _ => "a") initLS Relation.ReflTransGen.refl 0 1).1
    (by decide) rfl

end GoAdk
